import Mathlib

/-!
Verification of the ELA-based document forgery detection core
(`backend/forgery_detector.py`): the ELA transform, the feature
normalizer, the CNN verdict mapping, the traditional (heuristic)
fallback, and the `analyze_image` orchestrator.

Modelling choices (shallow embedding):
* Images are flat row-major lists of channel values (3 channels),
  values intended in `0..255`; shapes are carried explicitly.
* Library calls (PIL decode/encode, `cv2.resize`, `cv2.imread`, the
  image-quality metrics, and the Keras model) are modelled as explicit
  parameters or as faithful pixel-level functions.  A fallible stage is
  an `Except String` value; an `.error` models a raised Python
  exception reaching that point.
* Python floats are modelled by `ℚ`; `round(x, 2)` is modelled by
  rounding `x * 100` to the nearest integer and dividing by 100.
-/

namespace ForgeryDetector

/-- Python `round(x, 2)`: round to two decimal places. -/
def round2 (x : ℚ) : ℚ := (round (x * 100) : ℤ) / 100

/-- An image: height, width, and a flat row-major list of channel
values (`3` channels per pixel, so `pix` is intended to have length
`h * w * 3`). -/
structure Img where
  h : Nat
  w : Nat
  pix : List Nat
deriving DecidableEq, Repr

/-- Model of `np.zeros((128, 128, 3))`: the all-zero 128×128×3 image returned by
`calculate_ela` on failure. -/
def zeros128 : Img := ⟨128, 128, List.replicate (128 * 128 * 3) 0⟩

/-- Model of `ImageChops.difference`: per-channel absolute difference of two
images of the same shape. -/
def difference (a b : Img) : Img :=
  ⟨a.h, a.w, List.zipWith (fun x y => max x y - min x y) a.pix b.pix⟩

/-- Model of `max([max(band) for band in extrema])`: the maximum channel value
over the whole image (the ELA `max_diff`). -/
def max_diff_of (img : Img) : Nat := img.pix.foldr max 0

/-- Model of `ImageEnhance.Brightness(...).enhance(255.0 / max_diff)`: scale every
channel value by `255 / d`, clamped into `0..255` (PIL clamps; the exact
rounding mode of the library is immaterial to the stated properties, so
integer division is used). -/
def enhance_brightness (d : Nat) (img : Img) : Img :=
  ⟨img.h, img.w, img.pix.map (fun v => min 255 (v * 255 / d))⟩

/-- Model of `cv2.resize(..., (128, 128))`: resample to a 128×128×3 grid.
Modelled as nearest-neighbour sampling (every output value is an input
value, or `0` when the source index is out of range); the claims under
verification depend only on the output shape and on the sampled values
staying in the input's range. -/
def resize128 (img : Img) : Img :=
  ⟨128, 128,
    (List.range (128 * 128 * 3)).map (fun k =>
      let i := k / (128 * 3)
      let j := (k % (128 * 3)) / 3
      let c := k % 3
      img.pix.getD ((i * img.h / 128) * (img.w * 3) + (j * img.w / 128) * 3 + c) 0)⟩

/-- Embedding of `ForgeryDetector.calculate_ela`.  `decoded` is the outcome of
`Image.open(image_path).convert('RGB')` (`.error` = undecodable file or
any other exception before the pipeline starts); `recompress` is the
JPEG save/reload round trip at the given quality (`.error` = any
encode/temp-file failure).  Any error yields the all-zero 128×128×3
placeholder, exactly as the `except` branch does. -/
def calculate_ela (decoded : Except String Img)
    (recompress : Img → Except String Img) : Img :=
  match decoded with
  | .error _ => zeros128
  | .ok original =>
    match recompress original with
    | .error _ => zeros128
    | .ok recompressed =>
      let ela_image := difference original recompressed
      let max_diff := max_diff_of ela_image
      let max_diff := if max_diff = 0 then 1 else max_diff
      resize128 (enhance_brightness max_diff ela_image)

/-- A numeric tensor with an explicit batch dimension, as produced by
`np.expand_dims(..., axis=0)`. -/
structure Tensor where
  batch : Nat
  h : Nat
  w : Nat
  c : Nat
  data : List ℚ
deriving DecidableEq, Repr

/-- Model of `np.zeros((1, 128, 128, 3), dtype=np.float32)`. -/
def zeros_tensor : Tensor := ⟨1, 128, 128, 3, List.replicate (128 * 128 * 3) 0⟩

/-- Embedding of `ForgeryDetector.preprocess_image`, applied to the outcome of its
`try` block's ELA stage: normalize each channel value into `[0,1]` by
dividing by 255 and add a leading batch axis of size 1; any raised
exception (`.error`) is answered with the all-zero tensor. -/
def preprocess_image (elaOutcome : Except String Img) : Tensor :=
  match elaOutcome with
  | .error _ => zeros_tensor
  | .ok ela_image =>
    ⟨1, ela_image.h, ela_image.w, 3, ela_image.pix.map (fun v : Nat => (v : ℚ) / 255)⟩

/-- The image-quality metrics computed by `_traditional_analysis` from
a decoded image: Laplacian variance (sharpness), Canny edge density,
and Gaussian-residual noise level.  These are outputs of `cv2` library
calls, so they enter the model as given rationals. -/
structure Metrics where
  laplacian_var : ℚ
  edge_density : ℚ
  noise_level : ℚ
deriving DecidableEq, Repr

/-- The `forgery_indicators` counter of `_traditional_analysis`:
sharpness < 100 → +1, edge density > 0.1 → +1, noise level > 10 → +1.
The literal `0.1` is written `mkRat 1 10` so that it kernel-reduces. -/
def indicator_count (m : Metrics) : Nat :=
  (if m.laplacian_var < 100 then 1 else 0)
    + (if m.edge_density > mkRat 1 10 then 1 else 0)
    + (if m.noise_level > 10 then 1 else 0)

/-- Embedding of `ForgeryDetector._traditional_analysis`.  `imread` is the outcome of
`cv2.imread` plus the metric computations: `.error` models an exception
inside the `try` block, `.ok none` models `cv2.imread` returning `None`
(undecodable image), `.ok (some m)` a decoded image with its metrics. -/
def traditional_analysis (imread : Except String (Option Metrics)) : String × ℚ :=
  match imread with
  | .error _ => ("Error", 0)
  | .ok none => ("Error", 0)
  | .ok (some m) =>
    let forgery_indicators := indicator_count m
    let vc : String × Nat :=
      if forgery_indicators ≥ 2 then
        ("Forged", 60 + forgery_indicators * 15)
      else
        ("Genuine", 70 + (3 - forgery_indicators) * 10)
    (vc.1, ((min vc.2 95 : Nat) : ℚ))

/-- The dictionary returned by `ForgeryDetector.analyze_image`
(`analysis_method` and `error` are `none` when the corresponding key is
absent). -/
structure AnalysisResult where
  verdict : String
  confidence : ℚ
  ela_processed : Bool
  analysis_method : Option String
  error : Option String
deriving DecidableEq, Repr

/-- Embedding of `ForgeryDetector.analyze_image`.  `decoded`/`recompress` feed the
ELA stage; `model` is `self.model` (`some predict` when a model object
is present, with `.error` modelling an exception raised by
`model.predict` or the `prediction[0][0]` indexing; `none` when absent);
`imread` feeds `_traditional_analysis` on the fallback path. -/
def analyze_image (decoded : Except String Img)
    (recompress : Img → Except String Img)
    (model : Option (Tensor → Except String ℚ))
    (imread : Except String (Option Metrics)) : AnalysisResult :=
  let processed_image := preprocess_image (.ok (calculate_ela decoded recompress))
  match model with
  | some predict =>
    match predict processed_image with
    | .error e => ⟨"Error", 0, false, none, some e⟩
    | .ok confidence =>
      let vc : String × ℚ :=
        if confidence > mkRat 1 2 then ("Forged", confidence * 100)
        else ("Genuine", (1 - confidence) * 100)
      ⟨vc.1, round2 vc.2, true, some "CNN + ELA", none⟩
  | none =>
    let vc := traditional_analysis imread
    ⟨vc.1, round2 vc.2, true, some "Traditional", none⟩

/-! ### Shared helper lemmas -/

lemma mkRat_one_ten : (mkRat 1 10 : ℚ) = 1 / 10 := by
  norm_num [mkRat, Rat.normalize]

lemma mkRat_one_two : (mkRat 1 2 : ℚ) = 1 / 2 := by
  norm_num [mkRat, Rat.normalize]

/-- Rounding to two decimals moves a rational by at most `1/200`. -/
lemma round2_close (x : ℚ) : |x - round2 x| ≤ 1 / 200 := by
  have h := abs_sub_round (x * 100)
  have hx : x - round2 x = (x * 100 - (round (x * 100) : ℚ)) / 100 := by
    unfold round2; ring
  rw [hx, abs_div, abs_of_pos (by norm_num : (0 : ℚ) < 100)]
  rw [div_le_div_iff₀ (by norm_num) (by norm_num)]
  linarith

/-- Rounding a value of `[0, 100]` to two decimals stays in `[0, 100]`
and lands on a multiple of `1/100`. -/
lemma round2_bounds (x : ℚ) (h0 : 0 ≤ x) (h1 : x ≤ 100) :
    0 ≤ round2 x ∧ round2 x ≤ 100 ∧ ∃ n : ℤ, round2 x = (n : ℚ) / 100 := by
  have hr : round (x * 100) = ⌊x * 100 + 1 / 2⌋ := round_eq (x * 100)
  have hlo : (0 : ℤ) ≤ round (x * 100) := by
    rw [hr]
    exact Int.le_floor.mpr (by push_cast; linarith)
  have hhi : round (x * 100) ≤ 10000 := by
    rw [hr]
    have h2 : ⌊x * 100 + 1 / 2⌋ ≤ ⌊(10000 : ℚ) + 1 / 2⌋ :=
      Int.floor_le_floor (by linarith)
    have h3 : ⌊(10000 : ℚ) + 1 / 2⌋ = 10000 := by
      rw [Int.floor_eq_iff]
      norm_num
    omega
  refine ⟨?_, ?_, round (x * 100), rfl⟩
  · unfold round2
    have : (0 : ℚ) ≤ (round (x * 100) : ℚ) := by exact_mod_cast hlo
    positivity
  · unfold round2
    have : ((round (x * 100) : ℤ) : ℚ) ≤ 10000 := by exact_mod_cast hhi
    linarith

/-- Closed form of the traditional analysis on a decodable image. -/
lemma traditional_analysis_ok (m : Metrics) :
    traditional_analysis (.ok (some m)) =
      (if indicator_count m ≥ 2 then
        ("Forged", ((min (60 + indicator_count m * 15) 95 : Nat) : ℚ))
      else
        ("Genuine", ((min (70 + (3 - indicator_count m) * 10) 95 : Nat) : ℚ))) := by
  unfold traditional_analysis
  by_cases h : indicator_count m ≥ 2 <;> simp [h]

/-- The confidence returned by the traditional analysis lies in `[0, 100]`. -/
lemma traditional_confidence_bounds (imread : Except String (Option Metrics)) :
    0 ≤ (traditional_analysis imread).2 ∧ (traditional_analysis imread).2 ≤ 100 := by
  rcases imread with e | m
  · simp [traditional_analysis]
  · rcases m with _ | m
    · simp [traditional_analysis]
    · rw [traditional_analysis_ok]
      by_cases h : indicator_count m ≥ 2
      · rw [if_pos h]
        refine ⟨by positivity, ?_⟩
        have hm : min (60 + indicator_count m * 15) 95 ≤ 100 :=
          le_trans (min_le_right _ _) (by norm_num)
        dsimp only
        exact_mod_cast hm
      · rw [if_neg h]
        refine ⟨by positivity, ?_⟩
        have hm : min (70 + (3 - indicator_count m) * 10) 95 ≤ 100 :=
          le_trans (min_le_right _ _) (by norm_num)
        dsimp only
        exact_mod_cast hm

lemma getD_le_of_forall (l : List Nat) (n b : Nat) (hb : ∀ v ∈ l, v ≤ b) :
    l.getD n 0 ≤ b := by
  rw [List.getD_eq_getElem?_getD]
  cases h : l[n]? with
  | none => simp
  | some v => simpa using hb v (List.getElem?_mem h)

lemma getD_eq_zero_of_forall (l : List Nat) (n : Nat) (h0 : ∀ v ∈ l, v = 0) :
    l.getD n 0 = 0 := by
  rw [List.getD_eq_getElem?_getD]
  cases h : l[n]? with
  | none => simp
  | some v => simpa using h0 v (List.getElem?_mem h)

lemma resize128_shape (img : Img) :
    (resize128 img).h = 128 ∧ (resize128 img).w = 128 ∧
      (resize128 img).pix.length = 128 * 128 * 3 := by
  refine ⟨rfl, rfl, ?_⟩
  simp only [resize128, List.length_map, List.length_range]

lemma resize128_pix_le (img : Img) (b : Nat) (hb : ∀ v ∈ img.pix, v ≤ b) :
    ∀ v ∈ (resize128 img).pix, v ≤ b := by
  intro v hv
  simp only [resize128] at hv
  rw [List.mem_map] at hv
  obtain ⟨k, _, hv⟩ := hv
  rw [← hv]
  exact getD_le_of_forall _ _ _ hb

lemma resize128_zero (img : Img) (h0 : ∀ v ∈ img.pix, v = 0) :
    ∀ v ∈ (resize128 img).pix, v = 0 := by
  intro v hv
  simp only [resize128] at hv
  rw [List.mem_map] at hv
  obtain ⟨k, _, hv⟩ := hv
  rw [← hv]
  exact getD_eq_zero_of_forall _ _ h0

lemma enhance_pix_le (d : Nat) (img : Img) :
    ∀ v ∈ (enhance_brightness d img).pix, v ≤ 255 := by
  intro v hv
  simp only [enhance_brightness] at hv
  rw [List.mem_map] at hv
  obtain ⟨u, _, hv⟩ := hv
  rw [← hv]
  exact min_le_left _ _

lemma enhance_zero (d : Nat) (img : Img) (h0 : ∀ v ∈ img.pix, v = 0) :
    ∀ v ∈ (enhance_brightness d img).pix, v = 0 := by
  intro v hv
  simp only [enhance_brightness] at hv
  rw [List.mem_map] at hv
  obtain ⟨u, hu, hv⟩ := hv
  rw [← hv, h0 u hu]
  simp

lemma zipWith_absdiff_self (l : List Nat) :
    List.zipWith (fun x y => max x y - min x y) l l = List.replicate l.length 0 := by
  induction l with
  | nil => rfl
  | cons a t ih => simp [ih, List.replicate]

/-- The ELA output is always a 128×128×3 grid, on every branch. -/
lemma calculate_ela_shape (d : Except String Img) (r : Img → Except String Img) :
    (calculate_ela d r).h = 128 ∧ (calculate_ela d r).w = 128 ∧
      (calculate_ela d r).pix.length = 128 * 128 * 3 := by
  rcases d with e | img
  · exact ⟨rfl, rfl, by
      simp only [calculate_ela, zeros128, List.length_replicate]⟩
  · cases hr : r img with
    | error e =>
      simp only [calculate_ela, hr]
      exact ⟨rfl, rfl, by simp only [zeros128, List.length_replicate]⟩
    | ok rc => simp only [calculate_ela, hr]; exact resize128_shape _

/-- Every ELA output value lies in `0..255`, on every branch. -/
lemma calculate_ela_le255 (d : Except String Img) (r : Img → Except String Img) :
    ∀ v ∈ (calculate_ela d r).pix, v ≤ 255 := by
  rcases d with e | img
  · intro v hv
    simp only [calculate_ela, zeros128] at hv
    simp [List.eq_of_mem_replicate hv]
  · cases hr : r img with
    | error e =>
      intro v hv
      simp only [calculate_ela, hr, zeros128] at hv
      simp [List.eq_of_mem_replicate hv]
    | ok rc =>
      simp only [calculate_ela, hr]
      exact resize128_pix_le _ _ (enhance_pix_le _ _)

/-- When the original equals its recompression, the ELA map is all
zero (the `max_diff = 0` degenerate case). -/
lemma calculate_ela_identical (img : Img) (r : Img → Except String Img)
    (hr : r img = .ok img) :
    ∀ v ∈ (calculate_ela (.ok img) r).pix, v = 0 := by
  have hdiff : ∀ v ∈ (difference img img).pix, v = 0 := by
    intro v hv
    simp only [difference] at hv
    rw [zipWith_absdiff_self] at hv
    exact List.eq_of_mem_replicate hv
  simp only [calculate_ela, hr]
  exact resize128_zero _ (enhance_zero _ _ hdiff)

/-! ### Claim theorems -/

/-- Claim C2: on a decodable image, the heuristic classifier counts
exactly the indicators sharpness < 100, edge density > 0.1 and noise
level > 10 (each adding 1, so the count is in {0,1,2,3}), and returns
verdict Forged with confidence min(60 + count·15, 95) when the count is
at least 2, and verdict Genuine with confidence
min(70 + (3 − count)·10, 95) otherwise. -/
theorem C2_traditional_spec (m : Metrics) :
    indicator_count m =
        (if m.laplacian_var < 100 then 1 else 0)
          + (if m.edge_density > 1 / 10 then 1 else 0)
          + (if m.noise_level > 10 then 1 else 0)
    ∧ indicator_count m ≤ 3
    ∧ (2 ≤ indicator_count m →
        traditional_analysis (.ok (some m)) =
          ("Forged", ((min (60 + indicator_count m * 15) 95 : Nat) : ℚ)))
    ∧ (indicator_count m < 2 →
        traditional_analysis (.ok (some m)) =
          ("Genuine", ((min (70 + (3 - indicator_count m) * 10) 95 : Nat) : ℚ))) := by
  refine ⟨by simp [indicator_count, mkRat_one_ten], ?_, ?_, ?_⟩
  · unfold indicator_count
    split <;> split <;> split <;> simp
  · intro h
    rw [traditional_analysis_ok, if_pos h]
  · intro h
    rw [traditional_analysis_ok, if_neg (by omega)]

/-- Witness for C2 at the metrics (0, 0, 0): exactly one indicator
(sharpness 0 < 100) fires, so the verdict is Genuine. -/
theorem C2_traditional_spec_witness :
    indicator_count ⟨0, 0, 0⟩ < 2 ∧
    traditional_analysis (.ok (some ⟨0, 0, 0⟩)) =
      ("Genuine", ((min (70 + (3 - indicator_count ⟨0, 0, 0⟩) * 10) 95 : Nat) : ℚ)) :=
  ⟨by decide, (C2_traditional_spec ⟨0, 0, 0⟩).2.2.2 (by decide)⟩

/-- Claim C9, counterexample: at metrics (50, 0, 0) exactly one
indicator fires, and the heuristic returns confidence 90, not the 80
stated by the claim. -/
theorem C9_counterexample :
    indicator_count ⟨50, 0, 0⟩ = 1 ∧
    traditional_analysis (.ok (some ⟨50, 0, 0⟩)) = ("Genuine", 90) ∧
    ¬ traditional_analysis (.ok (some ⟨50, 0, 0⟩)) = ("Genuine", 80) := by
  have hic : indicator_count ⟨50, 0, 0⟩ = 1 := by decide
  refine ⟨hic, ?_, ?_⟩ <;> rw [traditional_analysis_ok, hic] <;> norm_num

/-- Claim C9 as amended: when the heuristic classifier computes
indicator_count = 1 on a decodable image, the verdict is Genuine with
confidence 90 (= min(70 + (3 − 1)·10, 95)). -/
theorem C9_amended (m : Metrics) (h : indicator_count m = 1) :
    traditional_analysis (.ok (some m)) = ("Genuine", 90) := by
  rw [traditional_analysis_ok, if_neg (by omega), h]
  norm_num

/-- Witness for the amended C9 at the metrics (50, 0, 0). -/
theorem C9_amended_witness :
    traditional_analysis (.ok (some ⟨50, 0, 0⟩)) = ("Genuine", 90) :=
  C9_amended ⟨50, 0, 0⟩ (by decide)

/-- Claim C1: for every probability p in [0,1] produced by the model,
analyze_image reports verdict Forged with confidence round2(p·100) when
p > 0.5 and verdict Genuine with confidence round2((1−p)·100)
otherwise; when the verdict is Genuine the reported confidence is never
the raw forged-class probability p. -/
theorem C1_cnn_verdict_spec (d : Except String Img) (r : Img → Except String Img)
    (im : Except String (Option Metrics)) (p : ℚ) (h0 : 0 ≤ p) (h1 : p ≤ 1) :
    (mkRat 1 2 < p →
      analyze_image d r (some (fun _t => .ok p)) im =
        ⟨"Forged", round2 (p * 100), true, some "CNN + ELA", none⟩)
    ∧ (p ≤ mkRat 1 2 →
      analyze_image d r (some (fun _t => .ok p)) im =
        ⟨"Genuine", round2 ((1 - p) * 100), true, some "CNN + ELA", none⟩)
    ∧ ((analyze_image d r (some (fun _t => .ok p)) im).verdict = "Genuine" →
        (analyze_image d r (some (fun _t => .ok p)) im).confidence ≠ p) := by
  have hF : mkRat 1 2 < p →
      analyze_image d r (some (fun _t => .ok p)) im =
        ⟨"Forged", round2 (p * 100), true, some "CNN + ELA", none⟩ := by
    intro hp
    simp [analyze_image, hp]
  have hG : p ≤ mkRat 1 2 →
      analyze_image d r (some (fun _t => .ok p)) im =
        ⟨"Genuine", round2 ((1 - p) * 100), true, some "CNN + ELA", none⟩ := by
    intro hp
    simp [analyze_image, not_lt.mpr hp]
  refine ⟨hF, hG, ?_⟩
  intro hv heq
  by_cases hp : mkRat 1 2 < p
  · rw [hF hp] at hv
    simp at hv
  · have hle : p ≤ mkRat 1 2 := not_lt.mp hp
    rw [hG hle] at heq
    have hhalf : p ≤ 1 / 2 := by rw [mkRat_one_two] at hle; exact hle
    have hc := round2_close ((1 - p) * 100)
    rw [abs_le] at hc
    simp only at heq
    rw [heq] at hc
    obtain ⟨hc1, hc2⟩ := hc
    linarith

/-- Witness for C1 at p = 0: the verdict is Genuine with confidence
round2((1 − 0)·100). -/
theorem C1_cnn_verdict_spec_witness :
    analyze_image (.error "img") (fun i => .ok i) (some (fun _t => .ok 0)) (.ok none) =
      ⟨"Genuine", round2 ((1 - 0) * 100), true, some "CNN + ELA", none⟩ :=
  (C1_cnn_verdict_spec (.error "img") (fun i => .ok i) (.ok none) 0
    le_rfl (by decide)).2.1 (by decide)

/-- Claim C8, counterexample: at probability p = 0.5 the code takes the
else branch, so the verdict is Genuine, not Forged as the claim
states. -/
theorem C8_counterexample :
    (analyze_image (.error "img") (fun i => .ok i)
        (some (fun _t => .ok (mkRat 1 2))) (.ok none)).verdict = "Genuine" ∧
    (analyze_image (.error "img") (fun i => .ok i)
        (some (fun _t => .ok (mkRat 1 2))) (.ok none)).verdict ≠ "Forged" :=
  ⟨rfl, by decide⟩

/-- Claim C8 as amended: when the CNN probability is exactly p = 0.5,
the verdict is Genuine with confidence 50.0 (the decision boundary is
exclusive on the Forged side). -/
theorem C8_amended (d : Except String Img) (r : Img → Except String Img)
    (im : Except String (Option Metrics)) :
    analyze_image d r (some (fun _t => .ok (mkRat 1 2))) im =
      ⟨"Genuine", 50, true, some "CNN + ELA", none⟩ := by
  have h : ¬ (mkRat 1 2 < mkRat 1 2) := lt_irrefl _
  simp [analyze_image, h]
  rw [mkRat_one_two]
  norm_num [round2, round_eq]

/-- Claim C5: when the model's predict call raises, analyze_image
returns verdict Error, confidence 0.0, ela_processed = false, with the
error message preserved, and does not propagate the exception. -/
theorem C5_exception_spec (d : Except String Img) (r : Img → Except String Img)
    (im : Except String (Option Metrics)) (predict : Tensor → Except String ℚ)
    (e : String)
    (h : predict (preprocess_image (.ok (calculate_ela d r))) = .error e) :
    analyze_image d r (some predict) im = ⟨"Error", 0, false, none, some e⟩ := by
  simp [analyze_image, h]

/-- Witness for C5 with a predict stage that raises "boom". -/
theorem C5_exception_spec_witness :
    analyze_image (.error "img") (fun i => .ok i)
        (some (fun _t => .error "boom")) (.ok none) =
      ⟨"Error", 0, false, none, some "boom"⟩ :=
  C5_exception_spec (.error "img") (fun i => .ok i) (.ok none)
    (fun _t => .error "boom") "boom" rfl

/-- Claim C10: with no model and an undecodable image on the heuristic
path, _traditional_analysis returns ("Error", 0.0) and analyze_image
packages it through its success branch: verdict Error, confidence 0.0,
ela_processed = true, analysis_method Traditional. -/
theorem C10_traditional_error_packaging (d : Except String Img)
    (r : Img → Except String Img) :
    traditional_analysis (.ok none) = ("Error", 0) ∧
    analyze_image d r none (.ok none) =
      ⟨"Error", 0, true, some "Traditional", none⟩ := by
  refine ⟨rfl, ?_⟩
  simp [analyze_image, traditional_analysis, round2]

/-- Claim C3, counterexample: with a model present (the production
configuration), an undecodable input does not produce verdict Error:
the zero ELA map is analyzed and a Genuine/Forged verdict emerges. -/
theorem C3_counterexample :
    (analyze_image (.error "undecodable image") (fun i => .ok i)
        (some (fun _t => .ok 0)) (.error "undecodable image")).verdict = "Genuine" ∧
    (analyze_image (.error "undecodable image") (fun i => .ok i)
        (some (fun _t => .ok 0)) (.error "undecodable image")).verdict ≠ "Error" :=
  ⟨rfl, by decide⟩

/-- Claim C3 as amended: only on the heuristic path (model absent) does
an undecodable input yield verdict Error with confidence 0.0, and it
does so without raising to the caller; with a model present the
analysis continues on the neutral zero ELA map instead. -/
theorem C3_amended (d : Except String Img) (r : Img → Except String Img)
    (im : Except String (Option Metrics))
    (h : im = Except.ok none ∨ ∃ e, im = Except.error e) :
    (analyze_image d r none im).verdict = "Error" ∧
    (analyze_image d r none im).confidence = 0 := by
  rcases h with h | ⟨e, h⟩ <;> subst h <;>
    exact ⟨by simp [analyze_image, traditional_analysis],
           by simp [analyze_image, traditional_analysis, round2]⟩

/-- Witness for the amended C3: undecodable image, no model. -/
theorem C3_amended_witness :
    (analyze_image (.error "u") (fun i => .ok i) none (.ok none)).verdict = "Error" ∧
    (analyze_image (.error "u") (fun i => .ok i) none (.ok none)).confidence = 0 :=
  C3_amended (.error "u") (fun i => .ok i) (.ok none) (Or.inl rfl)

/-- Claim C4: calculate_ela is total: on every input it returns a
128×128×3 array with all values in [0,255]; any decode/encode/temp-file
error yields the all-zero array instead of propagating; and when the
original and recompressed images are pixel-identical the max_diff = 0
divisor is replaced by 1 and the map stays all-zero. -/
theorem C4_calculate_ela_spec (d : Except String Img) (r : Img → Except String Img) :
    ((calculate_ela d r).h = 128 ∧ (calculate_ela d r).w = 128 ∧
      (calculate_ela d r).pix.length = 128 * 128 * 3) ∧
    (∀ v ∈ (calculate_ela d r).pix, v ≤ 255) ∧
    (∀ e, d = .error e → calculate_ela d r = zeros128) ∧
    (∀ img e, d = .ok img → r img = .error e → calculate_ela d r = zeros128) ∧
    (∀ img, d = .ok img → r img = .ok img →
      ∀ v ∈ (calculate_ela d r).pix, v = 0) := by
  refine ⟨calculate_ela_shape d r, calculate_ela_le255 d r, ?_, ?_, ?_⟩
  · intro e he
    subst he
    rfl
  · intro img e hd hr
    subst hd
    simp only [calculate_ela, hr]
  · intro img hd hr
    subst hd
    exact calculate_ela_identical img r hr

/-- Witness for C4: an undecodable input yields the zero map. -/
theorem C4_calculate_ela_spec_witness :
    calculate_ela (.error "bad file") (fun i => .ok i) = zeros128 :=
  (C4_calculate_ela_spec (.error "bad file") (fun i => .ok i)).2.2.1 "bad file" rfl

/-- Claim C7: preprocess_image returns a (1,128,128,3) tensor whose
values all lie in [0,1], obtained by dividing each channel value of the
ELA map by 255 and prepending a batch axis of size 1; on any error it
returns the all-zero tensor of that shape instead of propagating. -/
theorem C7_preprocess_spec (d : Except String Img) (r : Img → Except String Img) :
    ((preprocess_image (.ok (calculate_ela d r))).batch = 1 ∧
     (preprocess_image (.ok (calculate_ela d r))).h = 128 ∧
     (preprocess_image (.ok (calculate_ela d r))).w = 128 ∧
     (preprocess_image (.ok (calculate_ela d r))).c = 3 ∧
     (preprocess_image (.ok (calculate_ela d r))).data.length = 128 * 128 * 3) ∧
    (∀ v ∈ (preprocess_image (.ok (calculate_ela d r))).data, 0 ≤ v ∧ v ≤ 1) ∧
    (preprocess_image (.ok (calculate_ela d r))).data =
      (calculate_ela d r).pix.map (fun v : Nat => (v : ℚ) / 255) ∧
    (∀ e, preprocess_image (.error e) = zeros_tensor) := by
  obtain ⟨hh, hw, hlen⟩ := calculate_ela_shape d r
  have hdata : (preprocess_image (.ok (calculate_ela d r))).data =
      (calculate_ela d r).pix.map (fun v : Nat => (v : ℚ) / 255) := rfl
  refine ⟨⟨rfl, hh, hw, rfl, ?_⟩, ?_, rfl, fun e => rfl⟩
  · rw [hdata, List.length_map, hlen]
  · intro v hv
    rw [hdata, List.mem_map] at hv
    obtain ⟨u, hu, hv⟩ := hv
    have hle : u ≤ 255 := calculate_ela_le255 d r u hu
    have hcast : (u : ℚ) ≤ 255 := by exact_mod_cast hle
    constructor
    · rw [← hv]
      positivity
    · rw [← hv]
      rw [div_le_one (by norm_num : (0:ℚ) < 255)]
      exact hcast

/-- Witness for C7: a raised exception yields the zero tensor. -/
theorem C7_preprocess_spec_witness :
    preprocess_image (.error "boom") = zeros_tensor :=
  (C7_preprocess_spec (.error "boom") (fun i => .ok i)).2.2.2 "boom"

/-- Claim C6: on every path (CNN, heuristic and error) the confidence
reported by analyze_image lies in [0,100] and is a whole number of
hundredths (rounded to 2 decimal places), provided the model's output
is a probability in [0,1]. -/
theorem C6_confidence_invariant (d : Except String Img)
    (r : Img → Except String Img) (model : Option (Tensor → Except String ℚ))
    (im : Except String (Option Metrics))
    (hp : ∀ f p, model = some f →
        f (preprocess_image (.ok (calculate_ela d r))) = .ok p → 0 ≤ p ∧ p ≤ 1) :
    0 ≤ (analyze_image d r model im).confidence ∧
    (analyze_image d r model im).confidence ≤ 100 ∧
    ∃ n : ℤ, (analyze_image d r model im).confidence = (n : ℚ) / 100 := by
  rcases model with _ | f
  · have hb := traditional_confidence_bounds im
    have h := round2_bounds (traditional_analysis im).2 hb.1 hb.2
    simpa [analyze_image] using h
  · cases hf : f (preprocess_image (.ok (calculate_ela d r))) with
    | error e =>
      refine ⟨?_, ?_, 0, ?_⟩ <;> simp [analyze_image, hf]
    | ok p =>
      obtain ⟨hp0, hp1⟩ := hp f p rfl hf
      by_cases hgt : mkRat 1 2 < p
      · have h := round2_bounds (p * 100) (by linarith) (by linarith)
        simpa [analyze_image, hf, hgt] using h
      · have hhalf : p ≤ 1 / 2 := by
          rw [← mkRat_one_two]; exact not_lt.mp hgt
        have h := round2_bounds ((1 - p) * 100) (by linarith) (by linarith)
        simpa [analyze_image, hf, hgt] using h

/-- Witness for C6 on the heuristic error path. -/
theorem C6_confidence_invariant_witness :
    0 ≤ (analyze_image (.error "img") (fun i => .ok i) none (.ok none)).confidence ∧
    (analyze_image (.error "img") (fun i => .ok i) none (.ok none)).confidence ≤ 100 ∧
    ∃ n : ℤ, (analyze_image (.error "img") (fun i => .ok i) none
        (.ok none)).confidence = (n : ℚ) / 100 :=
  C6_confidence_invariant (.error "img") (fun i => .ok i) none (.ok none)
    (fun _f _p h => nomatch h)

end ForgeryDetector
